import Mathlib

/-!
Verification development for `powerwalk` (`src/walker.go`).

The program is a concurrent file-tree walker.  `WalkLimit root walkFn limit`
(walker.go:34-100) spawns `limit` worker goroutines, one error-monitor
goroutine and one discoverer goroutine that drives `filepath.Walk`; the
discoverer hands each discovered entry to the unbuffered `files` channel with
a non-blocking send (dropping the entry if no worker is ready), workers apply
`walkFn` and push any non-nil error on `errs`, the monitor records the first
error in `walkErr` and closes `kill`, and the main function waits for the
discoverer (`wg.Wait`), closes `kill` itself when `walkErr` is nil, and
returns `walkErr`.

We embed the program as a labeled small-step transition system.  Each label
is one atomic channel/flag operation of one goroutine, at the granularity of
Go's channel operations under a sequentially-consistent interleaving
semantics:

* `dCheckKill`/`dCheckOk` — the outer `select` of the discoverer callback
  (walker.go:77-87): observe `kill` closed (then `close(files)` and return the
  internal abort error, which makes `filepath.Walk` stop), or take `default`.
* `dSend i`/`dDrop` — the inner non-blocking send (walker.go:82-85): an
  unbuffered-channel send succeeds exactly when some worker is parked on
  `case file := <-files` (state `.idle`); otherwise `default` drops the entry.
* `dFinish` — `filepath.Walk` returns after the last entry; `wg.Done()`.
* `wCompute i` — worker `i` finishes its `walkFn` call (walker.go:50) and
  either loops back to the select (nil) or moves to the blocked `errs <- err`.
* `wDie i` — worker `i`, parked in its select, observes `kill` closed and
  returns (walker.go:53-54).
* `wRecvClosed i` — worker `i` receives from the closed `files` channel,
  obtaining a nil `*walkArgs`; dereferencing it (walker.go:50) crashes the
  process.  (Receives from an open unbuffered channel happen only as the
  rendezvous `dSend`.)
* `mRecv i` — the monitor receives a worker's error (walker.go:65): `walkErr`
  is assigned at the rendezvous, the worker's send completes and it loops
  back to its select; the monitor then proceeds to `close(kill)`.
* `mClose` — the monitor's `close(kill)` (walker.go:66); closing an already
  closed channel crashes the process.
* `mKill` — the monitor observes `kill` closed (walker.go:67-68) and returns.
* `mainRead` — main passes `wg.Wait()` (possible once the discoverer is done)
  and reads `walkErr` (walker.go:93-95).
* `mainClose` — main's `close(kill)` in the `walkErr == nil` branch
  (walker.go:96); again a double close crashes.
* `mainRetE` — main returns the non-nil `walkErr` (walker.go:99).

The fields `reportLog`, `visitorLog`, `walkRet`, `filesCloseCount` and
`killCloseCount` are instrumentation: they record, respectively, the errors
received on `errs`, every visitor invocation with its result, the (discarded)
return value of `filepath.Walk`, and how often `files`/`kill` were actually
closed.  They influence no transition.

The external discovery primitive `filepath.Walk` is out of scope per the
spec; it is modelled by the list of entries (`walkArgs` records) it would
deliver, in order, to the callback, together with its documented abort
behavior: a non-nil, non-`SkipDir` error returned by the callback stops the
whole walk and becomes `filepath.Walk`'s return value.  The callback in
`WalkLimit` only ever returns nil or the internal abort error, never
`SkipDir`, so this is the only part of `filepath.Walk`'s contract the
program exercises.
-/

namespace Powerwalk

/-- A Go `error` value as far as this program can distinguish them:
`filepath.SkipDir`, the internal `errors.New("Error in walk. Cannot
continue.")` sentinel from walker.go:80, and arbitrary user errors. -/
inductive GoError where
  | skipDir
  | walkAborted
  | userError (msg : String)
  deriving DecidableEq, Repr

/-- The slice of `os.FileInfo` this program touches: it is only passed
through to the visitor, so an opaque record suffices. -/
structure FileInfo where
  name : String
  isDir : Bool
  deriving DecidableEq, Repr

/-- `walkArgs` (walker.go:102-106): the per-entry record handed from the
discoverer to a worker. -/
structure walkArgs where
  path : String
  info : Option FileInfo
  err : Option GoError
  deriving DecidableEq, Repr

/-- `filepath.WalkFunc`: the caller-supplied visitor. `none` is Go's nil. -/
def WalkFunc : Type := String → Option FileInfo → Option GoError → Option GoError

/-- Status of one worker goroutine (walker.go:45-58). `idle`: parked on the
`select` at walker.go:48; `busy e`: executing `walkFn` on entry `e`;
`sendingErr er`: blocked on `errs <- err` (walker.go:51); `dead`: returned. -/
inductive WStatus where
  | idle
  | busy (e : walkArgs)
  | sendingErr (er : GoError)
  | dead
  deriving DecidableEq, Repr

/-- Worker is currently executing a `walkFn` call. -/
def WStatus.isBusy : WStatus → Bool
  | .busy _ => true
  | _ => false

/-- Status of the discoverer goroutine (walker.go:74-91). `walking rem`:
`filepath.Walk` still has `rem` entries to deliver and the callback for the
head entry has not passed its outer `select` yet; `attempting e rest`: the
callback for `e` took the `default` branch of the outer `select` and is at
the inner non-blocking send; `done`: `filepath.Walk` returned and `wg.Done()`
ran. -/
inductive DStatus where
  | walking (remaining : List walkArgs)
  | attempting (item : walkArgs) (remaining : List walkArgs)
  | done
  deriving DecidableEq, Repr

/-- Status of the monitor goroutine (walker.go:63-70). `closing`: it received
an error and is about to `close(kill)`. -/
inductive MStatus where
  | waiting
  | closing
  | exited
  deriving DecidableEq, Repr

/-- Control point of the main function after the goroutines are spawned.
`running`: at `wg.Wait()` (walker.go:93); `gotNil`/`gotErr e`: read `walkErr`
at walker.go:95; `returned r`: `WalkLimit` returned `r` (walker.go:99). -/
inductive MainPC where
  | running
  | gotNil
  | gotErr (e : GoError)
  | returned (r : Option GoError)
  deriving DecidableEq, Repr

/-- One atomic operation; see the module comment for the mapping to
walker.go lines. -/
inductive Label where
  | dCheckKill
  | dCheckOk
  | dSend (i : Nat)
  | dDrop
  | dFinish
  | wCompute (i : Nat)
  | wDie (i : Nat)
  | wRecvClosed (i : Nat)
  | mRecv (i : Nat)
  | mClose
  | mKill
  | mainRead
  | mainClose
  | mainRetE
  deriving DecidableEq, Repr

/-- Labels executed by the error-monitor goroutine (walker.go:63-70). -/
def Label.byMonitor : Label → Bool
  | .mRecv _ => true
  | .mClose => true
  | .mKill => true
  | _ => false

/-- The shared state of one `WalkLimit` call after the goroutines are
spawned.  `killClosed` is the `kill` channel (closed/open), `filesClosed` the
`files` channel, `walkErr` the variable of walker.go:60, `crashed` records a
runtime panic (double channel close, nil dereference) that kills the whole
process.  The remaining fields are instrumentation only. -/
structure State where
  disc : DStatus
  workers : List WStatus
  killClosed : Bool
  killCloseCount : Nat
  filesClosed : Bool
  filesCloseCount : Nat
  monitor : MStatus
  walkErr : Option GoError
  mainPC : MainPC
  reportLog : List GoError
  visitorLog : List (walkArgs × Option GoError)
  walkRet : Option (Option GoError)
  crashed : Bool
  deriving DecidableEq, Repr

/-- The state of a `WalkLimit` call right after walker.go:41-91 spawned the
`limit` workers, the monitor and the discoverer. `entries` is the sequence
the external `filepath.Walk` primitive would deliver to the callback. -/
def initState (entries : List walkArgs) (limit : Nat) : State where
  disc := .walking entries
  workers := List.replicate limit .idle
  killClosed := false
  killCloseCount := 0
  filesClosed := false
  filesCloseCount := 0
  monitor := .waiting
  walkErr := none
  mainPC := .running
  reportLog := []
  visitorLog := []
  walkRet := none
  crashed := false

/-- `DefaultConcurrentWalks` (walker.go:12). -/
def DefaultConcurrentWalks : Int := 50

/-- The panic message of walker.go:38. -/
def walkLimitPanicMsg : String := "powerwalk: limit must be greater than zero."

/-- `WalkLimit` (walker.go:34-43): validate `limit` — a non-positive limit
panics (modelled as `Except.error`, carrying the panic message, distinct from
any returned `error` value) before any channel is created, any goroutine is
started, the discovery primitive is invoked or the visitor is called;
otherwise set up the initial configuration.  The subsequent concurrent
execution is given by `stepFn`/`run`. -/
def WalkLimit (entries : List walkArgs) (limit : Int) : Except String State :=
  if limit < 1 then .error walkLimitPanicMsg
  else .ok (initState entries limit.toNat)

/-- `Walk` (walker.go:22-24): `WalkLimit` with `DefaultConcurrentWalks`. -/
def Walk (entries : List walkArgs) : Except String State :=
  WalkLimit entries DefaultConcurrentWalks

/-- The effect of operation `l` on state `s`, assuming the process has not
crashed; `none` when `l` is not enabled at `s`. -/
def stepGo (fn : WalkFunc) (l : Label) (s : State) : Option State :=
  match l with
  | .dCheckKill =>
    -- walker.go:78-80: outer select observes `kill` closed, closes `files`,
    -- returns the abort sentinel; `filepath.Walk` stops and returns it,
    -- that return value is dropped (walker.go:76 is a bare statement).
    match s.disc with
    | .walking (_ :: _) =>
      if s.killClosed then
        some { s with disc := .done, filesClosed := true,
                      filesCloseCount := s.filesCloseCount + 1,
                      walkRet := some (some .walkAborted) }
      else none
    | _ => none
  | .dCheckOk =>
    -- walker.go:81: `kill` not closed, take `default`, move to inner select.
    match s.disc with
    | .walking (e :: rest) =>
      if s.killClosed then none else some { s with disc := .attempting e rest }
    | _ => none
  | .dSend i =>
    -- walker.go:83: non-blocking send succeeds — worker `i` is parked on
    -- `<-files`, the rendezvous hands it the entry; callback returns nil.
    match s.disc with
    | .attempting e rest =>
      match s.workers[i]? with
      | some .idle =>
        some { s with disc := .walking rest,
                      workers := s.workers.set i (.busy e) }
      | _ => none
    | _ => none
  | .dDrop =>
    -- walker.go:84: no worker is ready to receive, `default` drops the
    -- entry; callback returns nil and the walk continues.
    match s.disc with
    | .attempting _ rest =>
      if ∀ w ∈ s.workers, w ≠ WStatus.idle then
        some { s with disc := .walking rest }
      else none
    | _ => none
  | .dFinish =>
    -- walker.go:88-90: `filepath.Walk` delivered every entry and returns
    -- nil; `wg.Done()`.
    match s.disc with
    | .walking [] => some { s with disc := .done, walkRet := some none }
    | _ => none
  | .wCompute i =>
    -- walker.go:50-52: worker `i` finishes `walkFn`; on nil it loops back
    -- to the select, on an error it moves to the blocking `errs <- err`.
    match s.workers[i]? with
    | some (.busy e) =>
      match fn e.path e.info e.err with
      | none =>
        some { s with workers := s.workers.set i .idle,
                      visitorLog := s.visitorLog ++ [(e, none)] }
      | some er =>
        some { s with workers := s.workers.set i (.sendingErr er),
                      visitorLog := s.visitorLog ++ [(e, some er)] }
    | _ => none
  | .wDie i =>
    -- walker.go:53-54: parked worker observes `kill` closed and returns.
    match s.workers[i]? with
    | some .idle =>
      if s.killClosed then some { s with workers := s.workers.set i .dead }
      else none
    | _ => none
  | .wRecvClosed i =>
    -- walker.go:49-50: `files` is closed, the receive yields a nil pointer
    -- and `file.path` crashes the process.
    match s.workers[i]? with
    | some .idle =>
      if s.filesClosed then some { s with crashed := true } else none
    | _ => none
  | .mRecv i =>
    -- walker.go:65: rendezvous on `errs`: `walkErr` is assigned, worker `i`
    -- completes its send and loops back; the monitor heads for walker.go:66.
    match s.monitor with
    | .waiting =>
      match s.workers[i]? with
      | some (.sendingErr er) =>
        some { s with walkErr := some er,
                      reportLog := s.reportLog ++ [er],
                      workers := s.workers.set i .idle,
                      monitor := .closing }
      | _ => none
    | _ => none
  | .mClose =>
    -- walker.go:66: `close(kill)`; closing a closed channel panics.
    match s.monitor with
    | .closing =>
      if s.killClosed then some { s with crashed := true }
      else
        some { s with killClosed := true,
                      killCloseCount := s.killCloseCount + 1,
                      monitor := .exited }
    | _ => none
  | .mKill =>
    -- walker.go:67-68: the monitor observes `kill` closed and returns.
    match s.monitor with
    | .waiting =>
      if s.killClosed then some { s with monitor := .exited } else none
    | _ => none
  | .mainRead =>
    -- walker.go:93-95: `wg.Wait()` completes (the discoverer is done) and
    -- main reads `walkErr`.
    match s.mainPC with
    | .running =>
      match s.disc with
      | .done =>
        match s.walkErr with
        | none => some { s with mainPC := .gotNil }
        | some e => some { s with mainPC := .gotErr e }
      | _ => none
    | _ => none
  | .mainClose =>
    -- walker.go:96: `close(kill)` when the read saw nil; then return nil.
    match s.mainPC with
    | .gotNil =>
      if s.killClosed then some { s with crashed := true }
      else
        some { s with killClosed := true,
                      killCloseCount := s.killCloseCount + 1,
                      mainPC := .returned none }
    | _ => none
  | .mainRetE =>
    -- walker.go:99: return the non-nil `walkErr`.
    match s.mainPC with
    | .gotErr e => some { s with mainPC := .returned (some e) }
    | _ => none

/-- One atomic step: `stepFn fn l s = some s2` iff in state `s` the operation
`l` is enabled and yields `s2`.  A crashed process takes no further steps. -/
def stepFn (fn : WalkFunc) (l : Label) (s : State) : Option State :=
  if s.crashed then none else stepGo fn l s

/-- Execute a finite schedule of atomic operations. -/
def run (fn : WalkFunc) : List Label → State → Option State
  | [], s => some s
  | l :: ls, s =>
    match stepFn fn l s with
    | some s2 => run fn ls s2
    | none => none

/-- Some visitor invocation in the log returned error `er`. -/
def logHasErr (log : List (walkArgs × Option GoError)) (er : GoError) : Bool :=
  log.any fun pr => decide (pr.2 = some er)

/-- The entry `a` appears in no visitor-invocation record of `s`. -/
def noItemInLog (a : walkArgs) (s : State) : Bool :=
  s.visitorLog.all fun pr => decide (pr.1 ≠ a)

/-- Number of `walkFn` calls currently executing. -/
def inFlight (s : State) : Nat :=
  (s.workers.filter WStatus.isBusy).length

/-- The entries `filepath.Walk` has not yet delivered. -/
def remainingOf : DStatus → List walkArgs
  | .walking r => r
  | .attempting e r => e :: r
  | .done => []

/-- Entry `a` occurs nowhere in the state: not among undelivered entries,
not held by any worker, not in the visitor log. -/
def entryAbsent (a : walkArgs) (s : State) : Prop :=
  a ∉ remainingOf s.disc ∧ (∀ w ∈ s.workers, w ≠ .busy a) ∧
    (∀ pr ∈ s.visitorLog, pr.1 ≠ a)

instance (a : walkArgs) (s : State) : Decidable (entryAbsent a s) := by
  unfold entryAbsent; infer_instance

/-! ### Generic list facts used by the invariant proofs -/

theorem mem_of_idx {α : Type} : ∀ {l : List α} {i : Nat} {a : α},
    l[i]? = some a → a ∈ l := by
  intro l
  induction l with
  | nil => intro i a h; simp at h
  | cons x xs ih =>
    intro i a h
    cases i with
    | zero => simp at h; simp [h]
    | succ n => simp at h; exact List.mem_cons_of_mem _ (ih h)

theorem mem_set_cases {α : Type} : ∀ {l : List α} {i : Nat} {b a : α},
    a ∈ l.set i b → a ∈ l ∨ a = b := by
  intro l
  induction l with
  | nil => intro i b a h; simp [List.set] at h
  | cons x xs ih =>
    intro i b a h
    cases i with
    | zero =>
      simp [List.set] at h
      rcases h with h | h
      · right; exact h
      · left; exact List.mem_cons_of_mem _ h
    | succ n =>
      simp [List.set] at h
      rcases h with h | h
      · left; simp [h]
      · rcases ih h with h2 | h2
        · left; exact List.mem_cons_of_mem _ h2
        · right; exact h2

theorem head?_of_len_le_one {α : Type} : ∀ {l : List α} {a : α},
    l.head? = some a → l.length ≤ 1 → l = [a] := by
  intro l a h hl
  cases l with
  | nil => simp at h
  | cons x xs =>
    simp at h
    cases xs with
    | nil => simp [h]
    | cons y ys => simp at hl

theorem logHasErr_mono {log l2 : List (walkArgs × Option GoError)} {er : GoError}
    (h : logHasErr log er = true) : logHasErr (log ++ l2) er = true := by
  simp only [logHasErr, List.any_append, Bool.or_eq_true]
  exact Or.inl h

theorem logHasErr_last {log : List (walkArgs × Option GoError)} {e : walkArgs}
    {er : GoError} : logHasErr (log ++ [(e, some er)]) er = true := by
  simp [logHasErr]

/-! ### The global invariant -/

/-- Facts that hold in every state reachable from an initial configuration:
they tie the recorded `walkErr`, the errors received by the monitor
(`reportLog`) and the visitor invocations (`visitorLog`) together, and pin
down the channel-close bookkeeping. -/
structure Inv (fn : WalkFunc) (s : State) : Prop where
  monWaiting : s.monitor = .waiting → s.reportLog = [] ∧ s.walkErr = none
  errHead : s.walkErr = s.reportLog.head?
  repLen : s.reportLog.length ≤ 1
  repFromVisitor : ∀ er ∈ s.reportLog, logHasErr s.visitorLog er = true
  sendFromVisitor : ∀ w ∈ s.workers, ∀ er, w = .sendingErr er →
    logHasErr s.visitorLog er = true
  gotErrWalkErr : ∀ er, s.mainPC = .gotErr er → s.walkErr = some er
  retErrWalkErr : ∀ er, s.mainPC = .returned (some er) →
    s.walkErr = some er ∧ s.reportLog = [er]
  filesImpKill : s.filesClosed = true → s.killClosed = true ∧ s.disc = .done
  filesCount : s.filesCloseCount = (if s.filesClosed then 1 else 0)
  killCount : s.killCloseCount = (if s.killClosed then 1 else 0)
  visitorIsFn : ∀ pr ∈ s.visitorLog, pr.2 = fn pr.1.path pr.1.info pr.1.err

theorem inv_init (fn : WalkFunc) (entries : List walkArgs) (limit : Nat) :
    Inv fn (initState entries limit) := by
  constructor <;> simp [initState]

theorem inv_step {fn : WalkFunc} {l : Label} {s s2 : State}
    (h : stepFn fn l s = some s2) (hs : Inv fn s) : Inv fn s2 := by
  rw [stepFn] at h
  split at h
  · exact absurd h (by simp)
  cases l with
  | dCheckKill =>
    simp only [stepGo] at h
    split at h
    next e rest hd =>
      split at h
      next hk =>
        injection h with h; subst h
        have hf : s.filesClosed = false := by
          by_contra hc
          simp only [Bool.not_eq_false] at hc
          have := (hs.filesImpKill hc).2
          rw [hd] at this
          exact absurd this (by simp)
        refine ⟨hs.monWaiting, hs.errHead, hs.repLen, hs.repFromVisitor,
          hs.sendFromVisitor, hs.gotErrWalkErr, hs.retErrWalkErr,
          fun _ => ⟨hk, rfl⟩, ?_, hs.killCount, hs.visitorIsFn⟩
        simp [hs.filesCount, hf]
      next => exact absurd h (by simp)
    next => exact absurd h (by simp)
  | dCheckOk =>
    simp only [stepGo] at h
    split at h
    next e rest hd =>
      split at h
      next => exact absurd h (by simp)
      next =>
        injection h with h; subst h
        have hf : s.filesClosed = false := by
          by_contra hc
          simp only [Bool.not_eq_false] at hc
          have := (hs.filesImpKill hc).2
          rw [hd] at this
          exact absurd this (by simp)
        exact ⟨hs.monWaiting, hs.errHead, hs.repLen, hs.repFromVisitor,
          hs.sendFromVisitor, hs.gotErrWalkErr, hs.retErrWalkErr,
          fun hc => absurd hc (by simp [hf]), hs.filesCount, hs.killCount,
          hs.visitorIsFn⟩
    next => exact absurd h (by simp)
  | dSend i =>
    simp only [stepGo] at h
    split at h
    next e rest hd =>
      split at h
      next hw =>
        injection h with h; subst h
        have hf : s.filesClosed = false := by
          by_contra hc
          simp only [Bool.not_eq_false] at hc
          have := (hs.filesImpKill hc).2
          rw [hd] at this
          exact absurd this (by simp)
        refine ⟨hs.monWaiting, hs.errHead, hs.repLen, hs.repFromVisitor,
          ?_, hs.gotErrWalkErr, hs.retErrWalkErr,
          fun hc => absurd hc (by simp [hf]), hs.filesCount, hs.killCount,
          hs.visitorIsFn⟩
        intro w hw2 er hw3
        rcases mem_set_cases hw2 with h2 | h2
        · exact hs.sendFromVisitor w h2 er hw3
        · rw [h2] at hw3; exact absurd hw3 (by simp)
      next => exact absurd h (by simp)
    next => exact absurd h (by simp)
  | dDrop =>
    simp only [stepGo] at h
    split at h
    next e rest hd =>
      split at h
      next =>
        injection h with h; subst h
        have hf : s.filesClosed = false := by
          by_contra hc
          simp only [Bool.not_eq_false] at hc
          have := (hs.filesImpKill hc).2
          rw [hd] at this
          exact absurd this (by simp)
        exact ⟨hs.monWaiting, hs.errHead, hs.repLen, hs.repFromVisitor,
          hs.sendFromVisitor, hs.gotErrWalkErr, hs.retErrWalkErr,
          fun hc => absurd hc (by simp [hf]), hs.filesCount, hs.killCount,
          hs.visitorIsFn⟩
      next => exact absurd h (by simp)
    next => exact absurd h (by simp)
  | dFinish =>
    simp only [stepGo] at h
    split at h
    next hd =>
      injection h with h; subst h
      exact ⟨hs.monWaiting, hs.errHead, hs.repLen, hs.repFromVisitor,
        hs.sendFromVisitor, hs.gotErrWalkErr, hs.retErrWalkErr,
        fun hc => ⟨(hs.filesImpKill hc).1, rfl⟩, hs.filesCount, hs.killCount,
        hs.visitorIsFn⟩
    next => exact absurd h (by simp)
  | wCompute i =>
    simp only [stepGo] at h
    split at h
    next e hw =>
      split at h
      next hfn =>
        injection h with h; subst h
        refine ⟨hs.monWaiting, hs.errHead, hs.repLen, ?_, ?_,
          hs.gotErrWalkErr, hs.retErrWalkErr, hs.filesImpKill, hs.filesCount,
          hs.killCount, ?_⟩
        · intro er hm; exact logHasErr_mono (hs.repFromVisitor er hm)
        · intro w hw2 er hw3
          rcases mem_set_cases hw2 with h2 | h2
          · exact logHasErr_mono (hs.sendFromVisitor w h2 er hw3)
          · rw [h2] at hw3; exact absurd hw3 (by simp)
        · intro pr hm
          rcases List.mem_append.mp hm with h2 | h2
          · exact hs.visitorIsFn pr h2
          · simp at h2; rw [h2]; exact hfn.symm
      next er hfn =>
        injection h with h; subst h
        refine ⟨hs.monWaiting, hs.errHead, hs.repLen, ?_, ?_,
          hs.gotErrWalkErr, hs.retErrWalkErr, hs.filesImpKill, hs.filesCount,
          hs.killCount, ?_⟩
        · intro er2 hm; exact logHasErr_mono (hs.repFromVisitor er2 hm)
        · intro w hw2 er2 hw3
          rcases mem_set_cases hw2 with h2 | h2
          · exact logHasErr_mono (hs.sendFromVisitor w h2 er2 hw3)
          · rw [h2] at hw3
            injection hw3 with hw3
            rw [← hw3]
            exact logHasErr_last
        · intro pr hm
          rcases List.mem_append.mp hm with h2 | h2
          · exact hs.visitorIsFn pr h2
          · simp at h2; rw [h2]; exact hfn.symm
    next => exact absurd h (by simp)
  | wDie i =>
    simp only [stepGo] at h
    split at h
    next hw =>
      split at h
      next hk =>
        injection h with h; subst h
        refine ⟨hs.monWaiting, hs.errHead, hs.repLen, hs.repFromVisitor, ?_,
          hs.gotErrWalkErr, hs.retErrWalkErr, hs.filesImpKill, hs.filesCount,
          hs.killCount, hs.visitorIsFn⟩
        intro w hw2 er hw3
        rcases mem_set_cases hw2 with h2 | h2
        · exact hs.sendFromVisitor w h2 er hw3
        · rw [h2] at hw3; exact absurd hw3 (by simp)
      next => exact absurd h (by simp)
    next => exact absurd h (by simp)
  | wRecvClosed i =>
    simp only [stepGo] at h
    split at h
    next hw =>
      split at h
      next hf =>
        injection h with h; subst h
        exact ⟨hs.monWaiting, hs.errHead, hs.repLen, hs.repFromVisitor,
          hs.sendFromVisitor, hs.gotErrWalkErr, hs.retErrWalkErr,
          hs.filesImpKill, hs.filesCount, hs.killCount, hs.visitorIsFn⟩
      next => exact absurd h (by simp)
    next => exact absurd h (by simp)
  | mRecv i =>
    simp only [stepGo] at h
    split at h
    next hm =>
      split at h
      next er hw =>
        injection h with h; subst h
        obtain ⟨hrep, herr⟩ := hs.monWaiting hm
        refine ⟨by simp, ?_, ?_, ?_, ?_, ?_, ?_, hs.filesImpKill,
          hs.filesCount, hs.killCount, hs.visitorIsFn⟩
        · simp [hrep]
        · simp [hrep]
        · intro er2 hm2
          rw [hrep] at hm2
          simp at hm2
          rw [hm2]
          exact hs.sendFromVisitor _ (mem_of_idx hw) er rfl
        · intro w hw2 er2 hw3
          rcases mem_set_cases hw2 with h2 | h2
          · exact hs.sendFromVisitor w h2 er2 hw3
          · rw [h2] at hw3; exact absurd hw3 (by simp)
        · intro er2 hpc
          have := hs.gotErrWalkErr er2 hpc
          rw [herr] at this
          exact absurd this (by simp)
        · intro er2 hpc
          have := (hs.retErrWalkErr er2 hpc).1
          rw [herr] at this
          exact absurd this (by simp)
      next => exact absurd h (by simp)
    next => exact absurd h (by simp)
  | mClose =>
    simp only [stepGo] at h
    split at h
    next hm =>
      split at h
      next hk =>
        injection h with h; subst h
        exact ⟨hs.monWaiting, hs.errHead, hs.repLen, hs.repFromVisitor,
          hs.sendFromVisitor, hs.gotErrWalkErr, hs.retErrWalkErr,
          hs.filesImpKill, hs.filesCount, hs.killCount, hs.visitorIsFn⟩
      next hk =>
        injection h with h; subst h
        refine ⟨by simp, hs.errHead, hs.repLen, hs.repFromVisitor,
          hs.sendFromVisitor, hs.gotErrWalkErr, hs.retErrWalkErr,
          fun hc => ⟨rfl, (hs.filesImpKill hc).2⟩, hs.filesCount, ?_,
          hs.visitorIsFn⟩
        have : s.killClosed = false := by
          by_contra hc
          simp only [Bool.not_eq_false] at hc
          exact hk hc
        simp [hs.killCount, this]
    next => exact absurd h (by simp)
  | mKill =>
    simp only [stepGo] at h
    split at h
    next hm =>
      split at h
      next hk =>
        injection h with h; subst h
        exact ⟨by simp, hs.errHead, hs.repLen, hs.repFromVisitor,
          hs.sendFromVisitor, hs.gotErrWalkErr, hs.retErrWalkErr,
          hs.filesImpKill, hs.filesCount, hs.killCount, hs.visitorIsFn⟩
      next => exact absurd h (by simp)
    next => exact absurd h (by simp)
  | mainRead =>
    simp only [stepGo] at h
    split at h
    next hpc =>
      split at h
      next hd =>
        split at h
        next hwe =>
          injection h with h; subst h
          exact ⟨hs.monWaiting, hs.errHead, hs.repLen, hs.repFromVisitor,
            hs.sendFromVisitor, fun er hc => absurd hc (by simp),
            fun er hc => absurd hc (by simp), hs.filesImpKill, hs.filesCount,
            hs.killCount, hs.visitorIsFn⟩
        next e hwe =>
          injection h with h; subst h
          refine ⟨hs.monWaiting, hs.errHead, hs.repLen, hs.repFromVisitor,
            hs.sendFromVisitor, ?_, fun er hc => absurd hc (by simp),
            hs.filesImpKill, hs.filesCount, hs.killCount, hs.visitorIsFn⟩
          intro er hc
          injection hc with hc
          rw [← hc]
          exact hwe
      next => exact absurd h (by simp)
    next => exact absurd h (by simp)
  | mainClose =>
    simp only [stepGo] at h
    split at h
    next hpc =>
      split at h
      next hk =>
        injection h with h; subst h
        exact ⟨hs.monWaiting, hs.errHead, hs.repLen, hs.repFromVisitor,
          hs.sendFromVisitor, hs.gotErrWalkErr, hs.retErrWalkErr,
          hs.filesImpKill, hs.filesCount, hs.killCount, hs.visitorIsFn⟩
      next hk =>
        injection h with h; subst h
        refine ⟨hs.monWaiting, hs.errHead, hs.repLen, hs.repFromVisitor,
          hs.sendFromVisitor, fun er hc => absurd hc (by simp), ?_,
          fun hc => ⟨rfl, (hs.filesImpKill hc).2⟩, hs.filesCount, ?_,
          hs.visitorIsFn⟩
        · intro er hc
          injection hc with hc
          exact absurd hc (by simp)
        · have : s.killClosed = false := by
            by_contra hc
            simp only [Bool.not_eq_false] at hc
            exact hk hc
          simp [hs.killCount, this]
    next => exact absurd h (by simp)
  | mainRetE =>
    simp only [stepGo] at h
    split at h
    next e hpc =>
      injection h with h; subst h
      refine ⟨hs.monWaiting, hs.errHead, hs.repLen, hs.repFromVisitor,
        hs.sendFromVisitor, fun er hc => absurd hc (by simp), ?_,
        hs.filesImpKill, hs.filesCount, hs.killCount, hs.visitorIsFn⟩
      intro er hc
      injection hc with hc
      injection hc with hc
      rw [← hc]
      have hwe := hs.gotErrWalkErr e hpc
      refine ⟨hwe, ?_⟩
      apply head?_of_len_le_one _ hs.repLen
      rw [← hs.errHead]
      exact hwe
    next => exact absurd h (by simp)

theorem inv_run {fn : WalkFunc} : ∀ {ls : List Label} {s s2 : State},
    run fn ls s = some s2 → Inv fn s → Inv fn s2 := by
  intro ls
  induction ls with
  | nil => intro s s2 h hs; injection h with h; rw [← h]; exact hs
  | cons l ls ih =>
    intro s s2 h hs
    simp only [run] at h
    split at h
    next s3 hstep => exact ih h (inv_step hstep hs)
    next => exact absurd h (by simp)

/-! ### Structural step lemmas -/

/-- No step changes the number of workers: exactly `limit` worker goroutines
exist for the whole call. -/
theorem workers_length_step {fn : WalkFunc} {l : Label} {s s2 : State}
    (h : stepFn fn l s = some s2) : s2.workers.length = s.workers.length := by
  rw [stepFn] at h
  split at h
  · exact absurd h (by simp)
  cases l <;> simp only [stepGo] at h <;> (repeat split at h) <;>
    (try exact Option.noConfusion h) <;>
    (injection h with h; subst h; simp)

theorem workers_length_run {fn : WalkFunc} : ∀ {ls : List Label} {s s2 : State},
    run fn ls s = some s2 → s2.workers.length = s.workers.length := by
  intro ls
  induction ls with
  | nil => intro s s2 h; injection h with h; rw [h]
  | cons l ls ih =>
    intro s s2 h
    simp only [run] at h
    split at h
    next s3 hstep => rw [ih h, workers_length_step hstep]
    next => exact absurd h (by simp)

/-- The cancellation signal never resets: once `kill` is closed it stays
closed. -/
theorem kill_mono_step {fn : WalkFunc} {l : Label} {s s2 : State}
    (h : stepFn fn l s = some s2) (hk : s.killClosed = true) :
    s2.killClosed = true := by
  rw [stepFn] at h
  split at h
  · exact absurd h (by simp)
  cases l <;> simp only [stepGo] at h <;> (repeat split at h) <;>
    (try exact Option.noConfusion h) <;>
    (injection h with h; subst h; simp [hk])

/-- The only operations that can close `kill` are the monitor's `close(kill)`
(walker.go:66) and main's `close(kill)` (walker.go:96). -/
theorem kill_flip_label {fn : WalkFunc} {l : Label} {s s2 : State}
    (h : stepFn fn l s = some s2) (h0 : s.killClosed = false)
    (h1 : s2.killClosed = true) :
    Label.byMonitor l = true ∨ l = Label.mainClose := by
  by_cases hm : Label.byMonitor l = true
  · exact Or.inl hm
  right
  rw [stepFn] at h
  split at h
  · exact absurd h (by simp)
  cases l <;> simp only [stepGo] at h <;> (repeat split at h) <;>
    (try exact Option.noConfusion h) <;>
    (injection h with h; subst h) <;>
    first
      | rfl
      | (simp only [] at h1; rw [h0] at h1; exact absurd h1 (by simp))
      | exact absurd rfl hm

/-- The dispatch channel, once closed, stays closed. -/
theorem files_mono_step {fn : WalkFunc} {l : Label} {s s2 : State}
    (h : stepFn fn l s = some s2) (hk : s.filesClosed = true) :
    s2.filesClosed = true := by
  rw [stepFn] at h
  split at h
  · exact absurd h (by simp)
  cases l <;> simp only [stepGo] at h <;> (repeat split at h) <;>
    (try exact Option.noConfusion h) <;>
    (injection h with h; subst h; simp [hk])

/-- The only operation that closes the dispatch channel is the discoverer
observing the cancellation signal (walker.go:78-79). -/
theorem files_flip_label {fn : WalkFunc} {l : Label} {s s2 : State}
    (h : stepFn fn l s = some s2) (h0 : s.filesClosed = false)
    (h1 : s2.filesClosed = true) : l = Label.dCheckKill := by
  rw [stepFn] at h
  split at h
  · exact absurd h (by simp)
  cases l <;> simp only [stepGo] at h <;> (repeat split at h) <;>
    (try exact Option.noConfusion h) <;>
    (injection h with h; subst h) <;>
    first
      | rfl
      | (simp only [] at h1; rw [h0] at h1; exact absurd h1 (by simp))

/-- A dropped entry that occurs nowhere in the state stays absent: no later
step can revive it. -/
theorem entryAbsent_step {fn : WalkFunc} {l : Label} {s s2 : State}
    {a : walkArgs} (h : stepFn fn l s = some s2) (ha : entryAbsent a s) :
    entryAbsent a s2 := by
  obtain ⟨h1, h2, h3⟩ := ha
  rw [stepFn] at h
  split at h
  · exact absurd h (by simp)
  cases l with
  | dCheckKill =>
    simp only [stepGo] at h
    split at h
    next hd =>
      split at h
      next =>
        injection h with h; subst h
        exact ⟨by simp [remainingOf], h2, h3⟩
      next => exact Option.noConfusion h
    next => exact Option.noConfusion h
  | dCheckOk =>
    simp only [stepGo] at h
    split at h
    next e rest hd =>
      split at h
      next => exact Option.noConfusion h
      next =>
        injection h with h; subst h
        rw [hd] at h1
        exact ⟨h1, h2, h3⟩
    next => exact Option.noConfusion h
  | dSend i =>
    simp only [stepGo] at h
    split at h
    next e rest hd =>
      split at h
      next hw =>
        injection h with h; subst h
        rw [hd] at h1
        simp only [remainingOf, List.mem_cons, not_or] at h1
        refine ⟨h1.2, ?_, h3⟩
        intro w hw2 hbusy
        rcases mem_set_cases hw2 with hc | hc
        · exact h2 w hc hbusy
        · rw [hc] at hbusy
          injection hbusy with hbusy
          exact h1.1 hbusy.symm
      next => exact Option.noConfusion h
    next => exact Option.noConfusion h
  | dDrop =>
    simp only [stepGo] at h
    split at h
    next e rest hd =>
      split at h
      next =>
        injection h with h; subst h
        rw [hd] at h1
        simp only [remainingOf, List.mem_cons, not_or] at h1
        exact ⟨h1.2, h2, h3⟩
      next => exact Option.noConfusion h
    next => exact Option.noConfusion h
  | dFinish =>
    simp only [stepGo] at h
    split at h
    next hd =>
      injection h with h; subst h
      exact ⟨by simp [remainingOf], h2, h3⟩
    next => exact Option.noConfusion h
  | wCompute i =>
    simp only [stepGo] at h
    split at h
    next e hw =>
      have hea : e ≠ a := by
        intro hc
        exact h2 _ (mem_of_idx hw) (by rw [hc])
      split at h
      next hfn =>
        injection h with h; subst h
        refine ⟨h1, ?_, ?_⟩
        · intro w hw2 hbusy
          rcases mem_set_cases hw2 with hc | hc
          · exact h2 w hc hbusy
          · rw [hc] at hbusy; exact absurd hbusy (by simp)
        · intro pr hm
          rcases List.mem_append.mp hm with hc | hc
          · exact h3 pr hc
          · simp at hc; rw [hc]; exact hea
      next er hfn =>
        injection h with h; subst h
        refine ⟨h1, ?_, ?_⟩
        · intro w hw2 hbusy
          rcases mem_set_cases hw2 with hc | hc
          · exact h2 w hc hbusy
          · rw [hc] at hbusy; exact absurd hbusy (by simp)
        · intro pr hm
          rcases List.mem_append.mp hm with hc | hc
          · exact h3 pr hc
          · simp at hc; rw [hc]; exact hea
    next => exact Option.noConfusion h
  | wDie i =>
    simp only [stepGo] at h
    split at h
    next hw =>
      split at h
      next =>
        injection h with h; subst h
        refine ⟨h1, ?_, h3⟩
        intro w hw2 hbusy
        rcases mem_set_cases hw2 with hc | hc
        · exact h2 w hc hbusy
        · rw [hc] at hbusy; exact absurd hbusy (by simp)
      next => exact Option.noConfusion h
    next => exact Option.noConfusion h
  | wRecvClosed i =>
    simp only [stepGo] at h
    split at h
    next hw =>
      split at h
      next =>
        injection h with h; subst h
        exact ⟨h1, h2, h3⟩
      next => exact Option.noConfusion h
    next => exact Option.noConfusion h
  | mRecv i =>
    simp only [stepGo] at h
    split at h
    next hm =>
      split at h
      next er hw =>
        injection h with h; subst h
        refine ⟨h1, ?_, h3⟩
        intro w hw2 hbusy
        rcases mem_set_cases hw2 with hc | hc
        · exact h2 w hc hbusy
        · rw [hc] at hbusy; exact absurd hbusy (by simp)
      next => exact Option.noConfusion h
    next => exact Option.noConfusion h
  | mClose =>
    simp only [stepGo] at h
    split at h
    next hm =>
      split at h
      next =>
        injection h with h; subst h
        exact ⟨h1, h2, h3⟩
      next =>
        injection h with h; subst h
        exact ⟨h1, h2, h3⟩
    next => exact Option.noConfusion h
  | mKill =>
    simp only [stepGo] at h
    split at h
    next hm =>
      split at h
      next =>
        injection h with h; subst h
        exact ⟨h1, h2, h3⟩
      next => exact Option.noConfusion h
    next => exact Option.noConfusion h
  | mainRead =>
    simp only [stepGo] at h
    split at h
    next hpc =>
      split at h
      next hd =>
        split at h
        next =>
          injection h with h; subst h
          exact ⟨h1, h2, h3⟩
        next e hwe =>
          injection h with h; subst h
          exact ⟨h1, h2, h3⟩
      next => exact Option.noConfusion h
    next => exact Option.noConfusion h
  | mainClose =>
    simp only [stepGo] at h
    split at h
    next hpc =>
      split at h
      next =>
        injection h with h; subst h
        exact ⟨h1, h2, h3⟩
      next =>
        injection h with h; subst h
        exact ⟨h1, h2, h3⟩
    next => exact Option.noConfusion h
  | mainRetE =>
    simp only [stepGo] at h
    split at h
    next e hpc =>
      injection h with h; subst h
      exact ⟨h1, h2, h3⟩
    next => exact Option.noConfusion h


theorem entryAbsent_run {fn : WalkFunc} {a : walkArgs} :
    ∀ {ls : List Label} {s s2 : State},
    run fn ls s = some s2 → entryAbsent a s → entryAbsent a s2 := by
  intro ls
  induction ls with
  | nil => intro s s2 h ha; injection h with h; rw [← h]; exact ha
  | cons l ls ih =>
    intro s s2 h ha
    simp only [run] at h
    split at h
    next s3 hstep => exact ih h (entryAbsent_step hstep ha)
    next => exact absurd h (by simp)

theorem noItemInLog_of_absent {a : walkArgs} {s : State}
    (h : entryAbsent a s) : noItemInLog a s = true := by
  obtain ⟨-, -, h3⟩ := h
  simp only [noItemInLog, List.all_eq_true, decide_eq_true_eq]
  exact h3

/-- A legitimate return value: nil, or the unique error the monitor received
on `errs` — which some visitor invocation returned. -/
def okResult (s : State) (r : Option GoError) : Prop :=
  match r with
  | none => True
  | some er => s.reportLog = [er] ∧ logHasErr s.visitorLog er = true

/-- A return value that, when non-nil, was produced by some visitor
invocation. -/
def resultFromVisitor (s : State) (r : Option GoError) : Prop :=
  match r with
  | none => True
  | some er => logHasErr s.visitorLog er = true

/-! ### Concrete fixtures used by witnesses and counterexamples -/

def aItem : walkArgs := ⟨"a", some ⟨"a", false⟩, none⟩

def bItem : walkArgs := ⟨"b", some ⟨"b", false⟩, none⟩

def fnNil : WalkFunc := fun _ _ _ => none

def fnBoomA : WalkFunc := fun p _ _ =>
  if p = "a" then some (.userError "boom") else none

def fnBoomB : WalkFunc := fun p _ _ =>
  if p = "b" then some (.userError "boom") else none

def fnSkipB : WalkFunc := fun p _ _ =>
  if p = "b" then some .skipDir else none

/-! ### Claims -/

/-- C1, counterexample: the claim "WalkLimit returns nil [only] when the
traversal completes with no visitor invocation returning an error, and
otherwise returns the first error reported by any visitor invocation" fails
on the code.  Tree with one entry `a`, visitor erroring on `a`, limit 1:
the discoverer hands `a` to the worker and finishes, `wg.Wait` releases main
while the worker is still inside `walkFn` (the WaitGroup only tracks the
discoverer), main reads `walkErr == nil`, closes `kill` and returns nil;
only then does the visitor invocation produce its error, which is lost.
The final state has returned nil although a visitor invocation errored. -/
theorem c1_counterexample :
    (run fnBoomA
        [.dCheckOk, .dSend 0, .dFinish, .mainRead, .mainClose, .wCompute 0]
        (initState [aItem] 1)).map (fun s => (s.mainPC, s.visitorLog)) =
      some (.returned none,
        [(aItem, some (.userError "boom"))]) := by
  decide

/-- C1 (amended): in every reachable state of every `WalkLimit` execution,
a returned value is never anything else than nil or an error some visitor
invocation returned; a non-nil return equals the unique (hence first) error
the monitor received on `errs`.  (However nil can be returned even though a
visitor invocation errored, when the error arises after the discoverer
finished and main read `walkErr` before it was recorded — see the
counterexample.) -/
theorem c1_return_value (fn : WalkFunc) (entries : List walkArgs)
    (limit : Nat) (ls : List Label) (s : State) (r : Option GoError)
    (hrun : run fn ls (initState entries limit) = some s)
    (hret : s.mainPC = .returned r) : okResult s r := by
  have hinv := inv_run hrun (inv_init fn entries limit)
  cases r with
  | none => trivial
  | some er =>
    have hrep := (hinv.retErrWalkErr er hret).2
    refine ⟨hrep, hinv.repFromVisitor er ?_⟩
    rw [hrep]
    simp

def c1wState : State :=
  { initState [bItem] 1 with
    disc := .done
    killClosed := true
    killCloseCount := 1
    walkErr := some .skipDir
    monitor := .exited
    mainPC := .returned (some .skipDir)
    reportLog := [.skipDir]
    visitorLog := [(bItem, some .skipDir)]
    walkRet := some none }

theorem c1_return_value_w :
    run fnSkipB
        [.dCheckOk, .dSend 0, .wCompute 0, .mRecv 0, .mClose, .dFinish,
         .mainRead, .mainRetE] (initState [bItem] 1) = some c1wState ∧
    c1wState.mainPC = .returned (some .skipDir) ∧
    okResult c1wState (some .skipDir) :=
  ⟨by decide, by decide,
   c1_return_value fnSkipB [bItem] 1
     [.dCheckOk, .dSend 0, .wCompute 0, .mRecv 0, .mClose, .dFinish,
      .mainRead, .mainRetE] c1wState (some .skipDir) (by decide) (by decide)⟩

/-- C2: the discoverer's delivery is non-blocking with silent drop.  At the
inner select (walker.go:82-85): if some worker is parked on the dispatch
channel, the only possible outcome of the attempt is handing the entry to
such a worker (the `default` drop is disabled); if no worker is ready, the
only outcome is the drop, which changes nothing but the remaining entries —
no error is recorded anywhere — and an entry absent from the rest of the
state never shows up in any later visitor invocation, so it is never
surfaced to the visitor or (via `c1_return_value`) to the caller. -/
theorem c2_nonblocking_dispatch (fn : WalkFunc) (s : State) (e : walkArgs)
    (rest : List walkArgs) (hcr : s.crashed = false)
    (hd : s.disc = .attempting e rest) :
    (∀ i, s.workers[i]? = some .idle →
        stepFn fn (.dSend i) s =
          some { s with disc := .walking rest,
                        workers := s.workers.set i (.busy e) }) ∧
    ((∃ w ∈ s.workers, w = .idle) → stepFn fn .dDrop s = none) ∧
    ((∀ w ∈ s.workers, w ≠ .idle) →
        stepFn fn .dDrop s = some { s with disc := .walking rest }) ∧
    (∀ ls s2, entryAbsent e { s with disc := .walking rest } →
        run fn ls { s with disc := .walking rest } = some s2 →
        noItemInLog e s2 = true) := by
  refine ⟨?_, ?_, ?_, ?_⟩
  · intro i hw
    simp [stepFn, hcr, stepGo, hd, hw]
  · intro hex
    simp only [stepFn, hcr, Bool.false_eq_true, if_false, stepGo, hd]
    rw [if_neg]
    push_neg
    obtain ⟨w, hm, hw⟩ := hex
    exact ⟨w, hm, hw⟩
  · intro hall
    simp only [stepFn, hcr, Bool.false_eq_true, if_false, stepGo, hd]
    rw [if_pos hall]
  · intro ls s2 habs hrun
    exact noItemInLog_of_absent (entryAbsent_run hrun habs)

def c2sA : State := { initState [] 1 with disc := .attempting aItem [] }

def c2sA2 : State := { c2sA with disc := .walking [], workers := [.busy aItem] }

def c2sB : State := { c2sA with workers := [.busy bItem] }

def c2sB2 : State := { c2sB with disc := .walking [] }

theorem c2_nonblocking_dispatch_w :
    stepFn fnNil (.dSend 0) c2sA = some c2sA2 ∧
    stepFn fnNil .dDrop c2sA = none ∧
    stepFn fnNil .dDrop c2sB = some c2sB2 ∧
    noItemInLog aItem c2sB2 = true :=
  ⟨(c2_nonblocking_dispatch fnNil c2sA aItem [] (by decide) (by decide)).1 0
     (by decide),
   (c2_nonblocking_dispatch fnNil c2sA aItem [] (by decide) (by decide)).2.1
     ⟨.idle, by decide, rfl⟩,
   (c2_nonblocking_dispatch fnNil c2sB aItem [] (by decide) (by decide)).2.2.1
     (by decide),
   (c2_nonblocking_dispatch fnNil c2sB aItem [] (by decide) (by decide)).2.2.2
     [] c2sB2 (by decide) (by decide)⟩

/-- C3: `WalkLimit` with `limit < 1` panics (walker.go:37-39) — modelled as
`Except.error` with the panic message, which is not a returned error value —
and no initial configuration is ever produced, so no channel or worker is
created, the discovery primitive is never invoked and the visitor is never
called. -/
theorem c3_limit_validation (entries : List walkArgs) (limit : Int)
    (h : limit < 1) :
    WalkLimit entries limit = Except.error walkLimitPanicMsg ∧
    ∀ s, WalkLimit entries limit ≠ Except.ok s := by
  constructor
  · simp [WalkLimit, h]
  · intro s
    simp [WalkLimit, h]

theorem c3_limit_validation_w :
    (0 : Int) < 1 ∧
    WalkLimit [] 0 = Except.error walkLimitPanicMsg ∧
    WalkLimit [] 0 ≠ Except.ok (initState [] 1) :=
  ⟨by decide, (c3_limit_validation [] 0 (by decide)).1,
   (c3_limit_validation [] 0 (by decide)).2 (initState [] 1)⟩

/-- C4: `Walk root walkFn` is literally `WalkLimit root walkFn
DefaultConcurrentWalks` (walker.go:22-24) and `DefaultConcurrentWalks = 50`
(walker.go:12); the resulting configurations are equal, so every schedule
produces identical visitor invocations and an identical returned error. -/
theorem c4_walk_default (entries : List walkArgs) :
    Walk entries = WalkLimit entries 50 ∧ DefaultConcurrentWalks = 50 :=
  ⟨rfl, rfl⟩

def c5s1 : State :=
  { initState [] 1 with
    disc := .done
    mainPC := .gotNil
    walkRet := some none }

def c5s2 : State :=
  { c5s1 with
    killClosed := true
    killCloseCount := 1
    mainPC := .returned none }

/-- C5, counterexample: the claim "only the Error Monitor ever sets the
cancellation signal; every other component only reads it" fails on the
code: in every error-free traversal, it is main — the orchestrator, at
walker.go:96 — that closes `kill`.  Concretely: empty tree, limit 1, after
`filepath.Walk` finishes and main reads `walkErr == nil`, the reachable
state `c5s1` has the signal unset and main's own `close(kill)` step — label
`mainClose`, not a monitor label — sets it. -/
theorem c5_counterexample :
    run fnNil [.dFinish, .mainRead] (initState [] 1) = some c5s1 ∧
    c5s1.killClosed = false ∧
    stepFn fnNil .mainClose c5s1 = some c5s2 ∧
    c5s2.killClosed = true ∧
    Label.byMonitor .mainClose = false := by
  decide

/-- C5 (amended): the cancellation signal transitions at most once from
unset to set and never resets, and it is set only by the error monitor
(its `close(kill)` at walker.go:66) or by the orchestrator (main's
`close(kill)` at walker.go:96, taken on normal completion when no error was
recorded); the discoverer and the workers only read it. -/
theorem c5_cancellation_signal (fn : WalkFunc) :
    (∀ l s s2, stepFn fn l s = some s2 → s.killClosed = true →
      s2.killClosed = true) ∧
    (∀ l s s2, stepFn fn l s = some s2 → s.killClosed = false →
      s2.killClosed = true → Label.byMonitor l = true ∨ l = Label.mainClose) ∧
    (∀ entries limit ls s, run fn ls (initState entries limit) = some s →
      s.killCloseCount ≤ 1) := by
  refine ⟨fun l s s2 h hk => kill_mono_step h hk,
    fun l s s2 h h0 h1 => kill_flip_label h h0 h1, ?_⟩
  intro entries limit ls s hrun
  have hinv := inv_run hrun (inv_init fn entries limit)
  rw [hinv.killCount]
  split <;> simp

theorem c5_cancellation_signal_w :
    ({ c5s2 with monitor := MStatus.exited } : State).killClosed = true ∧
    (Label.byMonitor .mainClose = true ∨ Label.mainClose = Label.mainClose) ∧
    c5s2.killCloseCount ≤ 1 :=
  ⟨(c5_cancellation_signal fnNil).1 .mKill c5s2
     { c5s2 with monitor := MStatus.exited } (by decide) (by decide),
   (c5_cancellation_signal fnNil).2.1 .mainClose c5s1 c5s2 (by decide)
     (by decide) (by decide),
   (c5_cancellation_signal fnNil).2.2 [] 1 [.dFinish, .mainRead, .mainClose]
     c5s2 (by decide)⟩

def c6sFinal : State :=
  { initState [] 1 with
    disc := .done
    killClosed := true
    killCloseCount := 1
    mainPC := .returned none
    walkRet := some none }

/-- C6, counterexample: the claim "the dispatch channel is closed exactly
once: either at normal completion of discovery or at cancellation" fails on
the code: at normal completion `files` is never closed (workers are released
by closing `kill` at walker.go:96 instead; `close(files)` exists only inside
the cancellation branch, walker.go:79).  Concretely: empty tree, limit 1,
the traversal completes and returns nil with `files` still open, closed
zero times. -/
theorem c6_counterexample :
    run fnNil [.dFinish, .mainRead, .mainClose] (initState [] 1) =
      some c6sFinal ∧
    c6sFinal.mainPC = .returned none ∧
    c6sFinal.filesClosed = false ∧
    c6sFinal.filesCloseCount = 0 := by
  decide

/-- C6 (amended): the dispatch channel is closed at most once per traversal
call, and only at cancellation — the closing operation is exactly the
discoverer's reaction to observing the cancellation signal (walker.go:78-79),
so the channel can only be closed when the signal is set; once closed it
stays closed; at normal completion it is never closed. -/
theorem c6_files_close (fn : WalkFunc) :
    (∀ entries limit ls s, run fn ls (initState entries limit) = some s →
      s.filesCloseCount ≤ 1 ∧ (s.filesClosed = true → s.killClosed = true)) ∧
    (∀ l s s2, stepFn fn l s = some s2 → s.filesClosed = false →
      s2.filesClosed = true → l = Label.dCheckKill) ∧
    (∀ l s s2, stepFn fn l s = some s2 → s.filesClosed = true →
      s2.filesClosed = true) := by
  refine ⟨?_, fun l s s2 h h0 h1 => files_flip_label h h0 h1,
    fun l s s2 h hk => files_mono_step h hk⟩
  intro entries limit ls s hrun
  have hinv := inv_run hrun (inv_init fn entries limit)
  refine ⟨?_, fun hf => (hinv.filesImpKill hf).1⟩
  rw [hinv.filesCount]
  split <;> simp

def c6sPre : State :=
  { initState [aItem, bItem] 1 with
    disc := .walking [bItem]
    killClosed := true
    killCloseCount := 1
    monitor := .exited
    walkErr := some (.userError "boom")
    reportLog := [.userError "boom"]
    visitorLog := [(aItem, some (.userError "boom"))] }

def c6sCancel : State :=
  { c6sPre with
    disc := .done
    filesClosed := true
    filesCloseCount := 1
    walkRet := some (some .walkAborted) }

def c6sAfter : State := { c6sCancel with mainPC := .gotErr (.userError "boom") }

theorem c6_files_close_w :
    c6sCancel.filesCloseCount ≤ 1 ∧
    c6sCancel.killClosed = true ∧
    Label.dCheckKill = Label.dCheckKill ∧
    c6sAfter.filesClosed = true :=
  ⟨((c6_files_close fnBoomA).1 [aItem, bItem] 1
      [.dCheckOk, .dSend 0, .wCompute 0, .mRecv 0, .mClose, .dCheckKill]
      c6sCancel (by decide)).1,
   ((c6_files_close fnBoomA).1 [aItem, bItem] 1
      [.dCheckOk, .dSend 0, .wCompute 0, .mRecv 0, .mClose, .dCheckKill]
      c6sCancel (by decide)).2 (by decide),
   (c6_files_close fnBoomA).2.1 .dCheckKill c6sPre c6sCancel (by decide)
     (by decide) (by decide),
   (c6_files_close fnBoomA).2.2 .mainRead c6sCancel c6sAfter (by decide)
     (by decide)⟩

/-- C7: when the discoverer's callback runs for an entry with the
cancellation signal already set, the only enabled discoverer operation is
the `kill` branch of the outer select (walker.go:78-80): it makes no
delivery attempt for that entry (neither the `default` branch, nor a send,
nor a drop is enabled), closes the dispatch channel, and aborts
`filepath.Walk` — the discoverer is `done` and the remaining entries are
never discovered, since no discoverer operation is enabled in a `done`
state. -/
theorem c7_cancel_check (fn : WalkFunc) (s : State) (e : walkArgs)
    (rest : List walkArgs) (hcr : s.crashed = false)
    (hd : s.disc = .walking (e :: rest)) (hk : s.killClosed = true) :
    stepFn fn .dCheckKill s =
      some { s with disc := .done, filesClosed := true,
                    filesCloseCount := s.filesCloseCount + 1,
                    walkRet := some (some .walkAborted) } ∧
    stepFn fn .dCheckOk s = none ∧
    (∀ i, stepFn fn (.dSend i) s = none) ∧
    stepFn fn .dDrop s = none ∧
    stepFn fn .dFinish s = none ∧
    (∀ t : State, t.disc = .done →
      stepFn fn .dCheckKill t = none ∧ stepFn fn .dCheckOk t = none ∧
      (∀ i, stepFn fn (.dSend i) t = none) ∧ stepFn fn .dDrop t = none ∧
      stepFn fn .dFinish t = none) := by
  refine ⟨?_, ?_, ?_, ?_, ?_, ?_⟩
  · simp [stepFn, hcr, stepGo, hd, hk]
  · simp [stepFn, hcr, stepGo, hd, hk]
  · intro i
    simp [stepFn, hcr, stepGo, hd]
  · simp [stepFn, hcr, stepGo, hd]
  · simp [stepFn, hcr, stepGo, hd]
  · intro t ht
    refine ⟨?_, ?_, fun i => ?_, ?_, ?_⟩ <;>
      (rw [stepFn]; split; · rfl
       · simp [stepGo, ht])

def c7s : State :=
  { initState [] 1 with
    disc := .walking [aItem]
    killClosed := true
    killCloseCount := 1 }

def c7sCancel : State :=
  { c7s with
    disc := .done
    filesClosed := true
    filesCloseCount := 1
    walkRet := some (some .walkAborted) }

theorem c7_cancel_check_w :
    stepFn fnNil .dCheckKill c7s = some c7sCancel ∧
    stepFn fnNil .dCheckOk c7s = none ∧
    stepFn fnNil (.dSend 0) c7s = none ∧
    stepFn fnNil .dDrop c7s = none ∧
    stepFn fnNil .dFinish c7s = none ∧
    stepFn fnNil .dCheckKill c7sCancel = none ∧
    stepFn fnNil (.dSend 0) c7sCancel = none :=
  ⟨(c7_cancel_check fnNil c7s aItem [] (by decide) (by decide) (by decide)).1,
   (c7_cancel_check fnNil c7s aItem [] (by decide) (by decide)
      (by decide)).2.1,
   (c7_cancel_check fnNil c7s aItem [] (by decide) (by decide)
      (by decide)).2.2.1 0,
   (c7_cancel_check fnNil c7s aItem [] (by decide) (by decide)
      (by decide)).2.2.2.1,
   (c7_cancel_check fnNil c7s aItem [] (by decide) (by decide)
      (by decide)).2.2.2.2.1,
   ((c7_cancel_check fnNil c7s aItem [] (by decide) (by decide)
      (by decide)).2.2.2.2.2 c7sCancel (by decide)).1,
   ((c7_cancel_check fnNil c7s aItem [] (by decide) (by decide)
      (by decide)).2.2.2.2.2 c7sCancel (by decide)).2.2.1 0⟩

/-- C8, counterexample: the claim "`limit = 1` ... must produce the same
nil/non-nil outcome as higher limits for a given tree and visitor" fails on
the code: for the tree `[a, b]` with a visitor erroring exactly on `b`,
a `limit = 1` schedule drops `b` (the single worker is still busy with `a`
when `b` is offered) and returns nil, while a `limit = 2` schedule delivers
`b`, and the call returns the error.  The outcome is schedule- and
limit-dependent because of the silent drops. -/
theorem c8_counterexample :
    (run fnBoomB
        [.dCheckOk, .dSend 0, .dCheckOk, .dDrop, .dFinish, .wCompute 0,
         .mainRead, .mainClose]
        (initState [aItem, bItem] 1)).map State.mainPC =
      some (.returned none) ∧
    (run fnBoomB
        [.dCheckOk, .dSend 0, .dCheckOk, .dSend 1, .dFinish, .wCompute 1,
         .mRecv 1, .mClose, .mainRead, .mainRetE]
        (initState [aItem, bItem] 2)).map State.mainPC =
      some (.returned (some (.userError "boom"))) := by
  decide

/-- C8 (amended): `limit = 1` does serialize the visitor: exactly one worker
exists for the whole call, so at most one visitor call is ever in flight.
(The second half of the claim — equal nil/non-nil outcome across limits —
is refuted by the counterexample.) -/
theorem c8_serialized (fn : WalkFunc) (entries : List walkArgs)
    (ls : List Label) (s : State)
    (hrun : run fn ls (initState entries 1) = some s) :
    s.workers.length = 1 ∧ inFlight s ≤ 1 := by
  have hlen : s.workers.length = 1 := by
    have h := workers_length_run hrun
    simpa [initState] using h
  refine ⟨hlen, ?_⟩
  calc inFlight s ≤ s.workers.length := List.length_filter_le _ _
  _ = 1 := hlen

def c8wState : State :=
  { initState [aItem] 1 with
    disc := .walking []
    workers := [.busy aItem] }

theorem c8_serialized_w :
    c8wState.workers.length = 1 ∧ inFlight c8wState ≤ 1 :=
  c8_serialized fnNil [aItem] [.dCheckOk, .dSend 0] c8wState (by decide)

/-- C9: a visitor returning `filepath.SkipDir` is treated by the worker
exactly like any other non-nil error — walker.go:50-51 tests only
`err != nil`, with no special case for `SkipDir`: the worker forwards it on
`errs`, the monitor records it and closes `kill` (cancelling the traversal),
and main returns `filepath.SkipDir` as `WalkLimit`'s error, instead of
skipping the directory as the serial `filepath.Walk` would. -/
theorem c9_skipdir (fn : WalkFunc) (s t u v : State) (i j : Nat)
    (e : walkArgs) (hcr1 : s.crashed = false)
    (hw : s.workers[i]? = some (.busy e))
    (hfn : fn e.path e.info e.err = some .skipDir)
    (hcr2 : t.crashed = false) (hm : t.monitor = .waiting)
    (hw2 : t.workers[j]? = some (.sendingErr .skipDir))
    (hcr3 : u.crashed = false) (hm2 : u.monitor = .closing)
    (hk : u.killClosed = false) (hcr4 : v.crashed = false)
    (hpc : v.mainPC = .gotErr .skipDir) :
    stepFn fn (.wCompute i) s =
      some { s with workers := s.workers.set i (.sendingErr .skipDir),
                    visitorLog := s.visitorLog ++ [(e, some .skipDir)] } ∧
    stepFn fn (.mRecv j) t =
      some { t with walkErr := some .skipDir,
                    reportLog := t.reportLog ++ [.skipDir],
                    workers := t.workers.set j .idle, monitor := .closing } ∧
    stepFn fn .mClose u =
      some { u with killClosed := true,
                    killCloseCount := u.killCloseCount + 1,
                    monitor := .exited } ∧
    stepFn fn .mainRetE v =
      some { v with mainPC := .returned (some .skipDir) } := by
  refine ⟨?_, ?_, ?_, ?_⟩
  · simp [stepFn, hcr1, stepGo, hw, hfn]
  · simp [stepFn, hcr2, stepGo, hm, hw2]
  · simp [stepFn, hcr3, stepGo, hm2, hk]
  · simp [stepFn, hcr4, stepGo, hpc]

def c9sA : State :=
  { initState [bItem] 1 with
    disc := .walking []
    workers := [.busy bItem] }

def c9sB : State :=
  { c9sA with
    workers := [.sendingErr .skipDir]
    visitorLog := [(bItem, some .skipDir)] }

def c9sC : State :=
  { c9sB with
    walkErr := some .skipDir
    reportLog := [.skipDir]
    workers := [.idle]
    monitor := .closing }

def c9sD : State :=
  { c9sC with
    killClosed := true
    killCloseCount := 1
    monitor := .exited }

def c9sF : State :=
  { c9sD with
    disc := .done
    walkRet := some none
    mainPC := .gotErr .skipDir }

def c9sG : State := { c9sF with mainPC := .returned (some .skipDir) }

theorem c9_skipdir_w :
    stepFn fnSkipB (.wCompute 0) c9sA = some c9sB ∧
    stepFn fnSkipB (.mRecv 0) c9sB = some c9sC ∧
    stepFn fnSkipB .mClose c9sC = some c9sD ∧
    stepFn fnSkipB .mainRetE c9sF = some c9sG :=
  ⟨(c9_skipdir fnSkipB c9sA c9sB c9sC c9sF 0 0 bItem (by decide) (by decide)
      (by decide) (by decide) (by decide) (by decide) (by decide) (by decide)
      (by decide) (by decide) (by decide)).1,
   (c9_skipdir fnSkipB c9sA c9sB c9sC c9sF 0 0 bItem (by decide) (by decide)
      (by decide) (by decide) (by decide) (by decide) (by decide) (by decide)
      (by decide) (by decide) (by decide)).2.1,
   (c9_skipdir fnSkipB c9sA c9sB c9sC c9sF 0 0 bItem (by decide) (by decide)
      (by decide) (by decide) (by decide) (by decide) (by decide) (by decide)
      (by decide) (by decide) (by decide)).2.2.1,
   (c9_skipdir fnSkipB c9sA c9sB c9sC c9sF 0 0 bItem (by decide) (by decide)
      (by decide) (by decide) (by decide) (by decide) (by decide) (by decide)
      (by decide) (by decide) (by decide)).2.2.2⟩

/-- C10: the internal sentinel returned by the discovery callback after
cancellation (`"Error in walk. Cannot continue."`, walker.go:80) never
escapes to the caller: `filepath.Walk`'s return value is discarded
(walker.go:76 is a bare statement), so a returned value is nil or an error
some visitor invocation returned; in particular, if the visitor never
returns the sentinel, `WalkLimit` never returns it. -/
theorem c10_walk_error_discarded (fn : WalkFunc) (entries : List walkArgs)
    (limit : Nat) (ls : List Label) (s : State) (r : Option GoError)
    (hrun : run fn ls (initState entries limit) = some s)
    (hret : s.mainPC = .returned r) :
    resultFromVisitor s r ∧
    ((∀ p fi de, fn p fi de ≠ some .walkAborted) →
      r ≠ some .walkAborted) := by
  have hinv := inv_run hrun (inv_init fn entries limit)
  have core : resultFromVisitor s r := by
    cases r with
    | none => trivial
    | some er =>
      have hrep := (hinv.retErrWalkErr er hret).2
      refine hinv.repFromVisitor er ?_
      rw [hrep]
      simp
  refine ⟨core, ?_⟩
  intro hvf hreq
  rw [hreq] at core
  simp only [resultFromVisitor, logHasErr, List.any_eq_true,
    decide_eq_true_eq] at core
  obtain ⟨pr, hmem, hpr⟩ := core
  have hfnpr := hinv.visitorIsFn pr hmem
  rw [hpr] at hfnpr
  exact hvf _ _ _ hfnpr.symm

theorem c10_walk_error_discarded_w :
    resultFromVisitor c1wState (some .skipDir) ∧
    (some GoError.skipDir : Option GoError) ≠ some .walkAborted :=
  ⟨(c10_walk_error_discarded fnSkipB [bItem] 1
      [.dCheckOk, .dSend 0, .wCompute 0, .mRecv 0, .mClose, .dFinish,
       .mainRead, .mainRetE] c1wState (some .skipDir) (by decide)
      (by decide)).1,
   (c10_walk_error_discarded fnSkipB [bItem] 1
      [.dCheckOk, .dSend 0, .wCompute 0, .mRecv 0, .mClose, .dFinish,
       .mainRead, .mainRetE] c1wState (some .skipDir) (by decide)
      (by decide)).2
     (by
       intro p fi de hceq
       revert hceq
       simp only [fnSkipB]
       split <;> simp)⟩

end Powerwalk
